import Mathlib

/-!
Shallow embedding of `src/src/lib.rs` of the `rust-user-info-middleware--lib`
repository: an Axum extractor `ExtractUserInfo` whose
`from_request_parts` reads the `X-Endpoint-API-UserInfo` request header,
converts it to a string (`HeaderValue::to_str().unwrap()` — a panic when the
value holds a byte that is not visible ASCII or tab), trims it, decodes it as
standard padded base64 (`general_purpose::STANDARD.decode`), parses the bytes
as JSON (`serde_json::from_slice`), and returns either the parsed value or a
`(StatusCode::BAD_REQUEST, message)` pair.

Modelling conventions:
- Bytes are `Nat` (conceptually `< 256`); header names and values are `List Nat`.
- A request's header set is the list of (name, value) pairs in insertion
  order; `http::HeaderMap::get` returns the first value whose name matches
  case-insensitively, which we model with `List.find?` over ASCII-lowercased
  names (the `http` crate lowercases header names at construction).
- The `error!` logging side effect is modelled by threading an explicit log
  (a `List String`); the dynamic payload of the log line (the debug rendering
  of the underlying decode/parse error) is abstracted to the static part of
  the format string.
- The panic of `to_str().unwrap()` is the `ExtractResult.panicked` outcome.
-/

namespace UserInfo

/-- ASCII-lowercase a single byte, as the `http` crate normalises header
name bytes (only `A`–`Z` are shifted). -/
def lowerByte (b : Nat) : Nat :=
  if 65 ≤ b ∧ b ≤ 90 then b + 32 else b

/-- ASCII-lowercase the bytes of a header name. -/
def lowerName (n : List Nat) : List Nat :=
  n.map lowerByte

/-- Bytes of a Lean string literal, used to write header names readably. -/
def strBytes (s : String) : List Nat :=
  s.data.map Char.toNat

/-- Header name constant `HEADER_X_USER_INFO` from the source. -/
def HEADER_X_USER_INFO : String := "X-Endpoint-API-UserInfo"

/-- The header-name bytes the extractor looks up. -/
def headerNameBytes : List Nat := strBytes HEADER_X_USER_INFO

/-- A request's headers: (name bytes, value bytes) pairs in insertion order. -/
abbrev HeaderMap := List (List Nat × List Nat)

/-- Model of `parts.headers.get(name)`: the first value whose name matches
case-insensitively (the `http` crate's `HeaderMap::get` returns the first
value associated with the name). -/
def headerGet (hm : HeaderMap) (name : List Nat) : Option (List Nat) :=
  (hm.find? (fun p => lowerName p.1 == lowerName name)).map Prod.snd

/-- A byte the `http` crate accepts inside a `HeaderValue`: horizontal tab,
or `0x20`–`0xFF` except DEL (`0x7F`). -/
def validHeaderValueByte (b : Nat) : Prop :=
  b = 9 ∨ (32 ≤ b ∧ b ≤ 255 ∧ b ≠ 127)

instance (b : Nat) : Decidable (validHeaderValueByte b) := by
  unfold validHeaderValueByte; infer_instance

/-- A byte sequence representable as an `http::HeaderValue`. -/
def validHeaderValue (v : List Nat) : Prop :=
  ∀ b ∈ v, validHeaderValueByte b

instance (v : List Nat) : Decidable (validHeaderValue v) := by
  unfold validHeaderValue; infer_instance

/-- Visible-ASCII test of the `http` crate (`is_visible_ascii`): `to_str`
succeeds exactly when every byte is in `0x20`–`0x7E` or is a tab. -/
def visibleAsciiByte (b : Nat) : Bool :=
  (decide (32 ≤ b) && decide (b < 127)) || b == 9

/-- Model of `HeaderValue::to_str()`: `some` of the same bytes (they are
ASCII, hence already the string's code points) when all bytes are visible
ASCII, `none` (→ `unwrap` panic) otherwise. -/
def headerValueToStr (v : List Nat) : Option (List Nat) :=
  if v.all visibleAsciiByte then some v else none

/-- Whitespace recognised by Rust's `str::trim` (`char::is_whitespace`),
restricted to the ASCII range that can occur here: tab, LF, VT, FF, CR,
space. (The Unicode whitespace code points are above `0x7F` and cannot
survive `to_str`.) -/
def isRustWhitespace (b : Nat) : Bool :=
  b == 9 || b == 10 || b == 11 || b == 12 || b == 13 || b == 32

/-- Model of `str::trim`: drop leading and trailing whitespace. -/
def rustTrim (s : List Nat) : List Nat :=
  ((s.dropWhile isRustWhitespace).reverse.dropWhile isRustWhitespace).reverse

/-- Index of a byte in the RFC 4648 standard base64 alphabet
(`A`–`Z`, `a`–`z`, `0`–`9`, `+`, `/`), `none` for any other byte. -/
def b64Index (b : Nat) : Option Nat :=
  if 65 ≤ b ∧ b ≤ 90 then some (b - 65)
  else if 97 ≤ b ∧ b ≤ 122 then some (b - 97 + 26)
  else if 48 ≤ b ∧ b ≤ 57 then some (b - 48 + 52)
  else if b = 43 then some 62
  else if b = 47 then some 63
  else none

/-- Model of `general_purpose::STANDARD.decode`: RFC 4648 standard alphabet,
canonical padding required (input length a multiple of four, `=` only as the
last one or two bytes), and non-zero trailing bits rejected
(`decode_allow_trailing_bits` is false in the `STANDARD` engine). `61` is the
byte of `=`. -/
def base64Decode : List Nat → Option (List Nat)
  | [] => some []
  | c1 :: c2 :: c3 :: c4 :: rest =>
    match b64Index c1, b64Index c2 with
    | some i1, some i2 =>
      match rest with
      | [] =>
        if c4 = 61 then
          if c3 = 61 then
            if i2 % 16 = 0 then some [i1 * 4 + i2 / 16] else none
          else
            match b64Index c3 with
            | some i3 =>
              if i3 % 4 = 0 then
                some [i1 * 4 + i2 / 16, (i2 % 16) * 16 + i3 / 4]
              else none
            | none => none
        else
          match b64Index c3, b64Index c4 with
          | some i3, some i4 =>
            some [i1 * 4 + i2 / 16, (i2 % 16) * 16 + i3 / 4, (i3 % 4) * 64 + i4]
          | _, _ => none
      | _ :: _ =>
        match b64Index c3, b64Index c4, base64Decode rest with
        | some i3, some i4, some tail =>
          some ((i1 * 4 + i2 / 16) :: ((i2 % 16) * 16 + i3 / 4) :: ((i3 % 4) * 64 + i4) :: tail)
        | _, _, _ => none
    | _, _ => none
  | _ => none

/-- JSON values, as `serde_json::Value`. Strings (and object keys) are kept
as their decoded Unicode code points; numbers are kept as their validated
lexeme bytes (serde_json stores them as u64/i64/f64; every comparison in
this development is between outputs of the same parser on the same bytes,
so the lexeme is an adequate representation — but whether a literal is
accepted at all, including serde_json's `NumberOutOfRange` on f64 overflow,
is modelled exactly, see `numberAccept`). Object members are kept in parse
order. -/
inductive Json where
  | null
  | bool (b : Bool)
  | num (lexeme : List Nat)
  | str (codepoints : List Nat)
  | arr (items : List Json)
  | obj (members : List (List Nat × Json))

/-- JSON insignificant whitespace: space, tab, LF, CR. -/
def jsonWs (b : Nat) : Bool :=
  b == 32 || b == 9 || b == 10 || b == 13

/-- Skip insignificant whitespace. -/
def skipWs (s : List Nat) : List Nat :=
  s.dropWhile jsonWs

/-- Value of a hex digit byte, `none` for a non-hex byte. -/
def hexVal (b : Nat) : Option Nat :=
  if 48 ≤ b ∧ b ≤ 57 then some (b - 48)
  else if 65 ≤ b ∧ b ≤ 70 then some (b - 55)
  else if 97 ≤ b ∧ b ≤ 102 then some (b - 87)
  else none

/-- Parse the body of a JSON string (the opening quote already consumed) into
its code points and the remaining input, as serde_json does: control bytes
below `0x20` are rejected, the eight single-character escapes and `\uXXXX`
are decoded (a high surrogate must be followed by a `\u` low surrogate, a
lone surrogate is an error), and multi-byte sequences are validated as
strict UTF-8 (no overlongs, no surrogates, at most `0x10FFFF`).
Byte `34` is `"`, `92` is backslash, `117` is `u`. -/
def parseStringBody : List Nat → Option (List Nat × List Nat)
  | [] => none
  | 34 :: rest => some ([], rest)
  | 92 :: esc =>
    match esc with
    | 34 :: r => (parseStringBody r).map (fun p => (34 :: p.1, p.2))
    | 92 :: r => (parseStringBody r).map (fun p => (92 :: p.1, p.2))
    | 47 :: r => (parseStringBody r).map (fun p => (47 :: p.1, p.2))
    | 98 :: r => (parseStringBody r).map (fun p => (8 :: p.1, p.2))
    | 102 :: r => (parseStringBody r).map (fun p => (12 :: p.1, p.2))
    | 110 :: r => (parseStringBody r).map (fun p => (10 :: p.1, p.2))
    | 114 :: r => (parseStringBody r).map (fun p => (13 :: p.1, p.2))
    | 116 :: r => (parseStringBody r).map (fun p => (9 :: p.1, p.2))
    | 117 :: h1 :: h2 :: h3 :: h4 :: r =>
      match hexVal h1, hexVal h2, hexVal h3, hexVal h4 with
      | some d1, some d2, some d3, some d4 =>
        let cp := d1 * 4096 + d2 * 256 + d3 * 16 + d4
        if 56320 ≤ cp ∧ cp ≤ 57343 then none
        else if 55296 ≤ cp ∧ cp ≤ 56319 then
          match r with
          | 92 :: 117 :: g1 :: g2 :: g3 :: g4 :: r2 =>
            match hexVal g1, hexVal g2, hexVal g3, hexVal g4 with
            | some e1, some e2, some e3, some e4 =>
              let cp2 := e1 * 4096 + e2 * 256 + e3 * 16 + e4
              if 56320 ≤ cp2 ∧ cp2 ≤ 57343 then
                (parseStringBody r2).map
                  (fun p => ((65536 + (cp - 55296) * 1024 + (cp2 - 56320)) :: p.1, p.2))
              else none
            | _, _, _, _ => none
          | _ => none
        else (parseStringBody r).map (fun p => (cp :: p.1, p.2))
      | _, _, _, _ => none
    | _ => none
  | b :: rest =>
    if b < 32 then none
    else if b < 128 then (parseStringBody rest).map (fun p => (b :: p.1, p.2))
    else if 194 ≤ b ∧ b ≤ 223 then
      match rest with
      | b2 :: r =>
        if 128 ≤ b2 ∧ b2 ≤ 191 then
          (parseStringBody r).map (fun p => (((b - 192) * 64 + (b2 - 128)) :: p.1, p.2))
        else none
      | [] => none
    else if 224 ≤ b ∧ b ≤ 239 then
      match rest with
      | b2 :: b3 :: r =>
        let lo2 := if b = 224 then 160 else 128
        let hi2 := if b = 237 then 159 else 191
        if (lo2 ≤ b2 ∧ b2 ≤ hi2) ∧ (128 ≤ b3 ∧ b3 ≤ 191) then
          (parseStringBody r).map
            (fun p => (((b - 224) * 4096 + (b2 - 128) * 64 + (b3 - 128)) :: p.1, p.2))
        else none
      | _ => none
    else if 240 ≤ b ∧ b ≤ 244 then
      match rest with
      | b2 :: b3 :: b4 :: r =>
        let lo2 := if b = 240 then 144 else 128
        let hi2 := if b = 244 then 143 else 191
        if (lo2 ≤ b2 ∧ b2 ≤ hi2) ∧ (128 ≤ b3 ∧ b3 ≤ 191) ∧ (128 ≤ b4 ∧ b4 ≤ 191) then
          (parseStringBody r).map
            (fun p =>
              (((b - 240) * 262144 + (b2 - 128) * 4096 + (b3 - 128) * 64 + (b4 - 128)) :: p.1,
               p.2))
        else none
      | _ => none
    else none

/-- ASCII decimal digit test. -/
def isDigitByte (b : Nat) : Bool :=
  decide (48 ≤ b) && decide (b ≤ 57)

/-- Parse a JSON exponent's optional sign and mandatory digits (bytes 43/45
are `+`/`-`), returning the consumed lexeme bytes and the remaining input. -/
def parseExpDigits (s : List Nat) : Option (List Nat × List Nat) :=
  let (signPart, s1) :=
    match s with
    | 43 :: r => (([43] : List Nat), r)
    | 45 :: r => (([45] : List Nat), r)
    | _ => (([] : List Nat), s)
  let ds := s1.takeWhile isDigitByte
  if ds = [] then none
  else some (signPart ++ ds, s1.dropWhile isDigitByte)

/-- Parse a JSON number's optional fraction `. digits+` (byte 46 is `.`) and
optional exponent `e|E (+|-)? digits+` (bytes 101/69), returning the
consumed lexeme bytes and the remaining input. -/
def parseNumberTail (s : List Nat) : Option (List Nat × List Nat) :=
  let (fracPart, s1) :=
    match s with
    | 46 :: r =>
      ((46 :: r.takeWhile isDigitByte : List Nat), r.dropWhile isDigitByte)
    | _ => (([] : List Nat), s)
  if fracPart = [46] then none
  else
    match s1 with
    | 101 :: r => (parseExpDigits r).map (fun p => (fracPart ++ 101 :: p.1, p.2))
    | 69 :: r => (parseExpDigits r).map (fun p => (fracPart ++ 69 :: p.1, p.2))
    | _ => some (fracPart, s1)

/-- Parse a JSON number starting at the given input, returning its lexeme
bytes and the remaining input, with serde_json's grammar: optional `-`
(byte 45), then either a single `0` (byte 48 — a following digit is NOT
consumed, it is left for the caller to reject as a trailing character) or a
nonzero digit followed by digits, then the optional fraction and exponent. -/
def parseNumber (s : List Nat) : Option (List Nat × List Nat) :=
  let (negPart, s1) :=
    match s with
    | 45 :: r => (([45] : List Nat), r)
    | _ => ([], s)
  match s1 with
  | [] => none
  | b :: r =>
    if b = 48 then
      (parseNumberTail r).map (fun p => (negPart ++ [48] ++ p.1, p.2))
    else if isDigitByte b then
      let ds := (b :: r).takeWhile isDigitByte
      let r2 := (b :: r).dropWhile isDigitByte
      (parseNumberTail r2).map (fun p => (negPart ++ ds ++ p.1, p.2))
    else none

/-- Value of an ASCII digit byte. -/
def digitVal (b : Nat) : Nat := b - 48

/-- serde_json's significand accumulation over the integer digits
(`parse_integer`, then `parse_long_integer`): digits are absorbed into a
`u64` until one more would overflow; from there the remaining integer
digits are only counted into the decimal exponent, their values
discarded. -/
def accumIntDigits : List Nat → Nat → Nat × Nat
  | [], sig => (sig, 0)
  | d :: ds, sig =>
    if sig * 10 + d ≥ 2 ^ 64 then (sig, (d :: ds).length)
    else accumIntDigits ds (sig * 10 + d)

/-- serde_json's significand accumulation over the fraction digits
(`parse_decimal`): each absorbed digit also decrements the decimal
exponent; at the first digit that would overflow the `u64`, all remaining
fraction digits are ignored. -/
def accumFracDigits : List Nat → Nat → Int → Nat × Int
  | [], sig, e => (sig, e)
  | d :: ds, sig, e =>
    if sig * 10 + d ≥ 2 ^ 64 then (sig, e)
    else accumFracDigits ds (sig * 10 + d) (e - 1)

/-- serde_json's exponent-digit accumulation (`parse_exponent`): an `i32`
value; `none` when one more digit would exceed `i32::MAX`, which serde_json
routes to `parse_exponent_overflow`. -/
def accumExpDigits : List Nat → Nat → Option Nat
  | [], e => some e
  | d :: ds, e =>
    if e * 10 + d > 2147483647 then none
    else accumExpDigits ds (e * 10 + d)

/-- Round a natural number to 53 significant bits, ties to even: the exact
value of the nearest IEEE double of an integer. This is what `sig as f64`
computes for a `u64` significand and what the correctly rounded `1eN`
literals of serde_json's `POW10` table are for the integers `10^N`. -/
def roundTo53 (n : Nat) : Nat :=
  if n < 2 ^ 53 then n
  else
    let k := n.log2 + 1 - 53
    let q := n / 2 ^ k
    let r := n % 2 ^ k
    let half := 2 ^ (k - 1)
    if half < r ∨ (r = half ∧ q % 2 = 1) then (q + 1) * 2 ^ k else q * 2 ^ k

/-- Magnitudes at least `2^1024 − 2^970` round to infinity under IEEE
round-to-nearest-even; smaller magnitudes round to a finite double. -/
def f64OverflowThreshold : Nat := 2 ^ 1024 - 2 ^ 970

/-- serde_json's `f64_from_parts` verdict on significand `sig` and decimal
exponent `e`, decided exactly in integer arithmetic: a zero significand is
always in range (the value is `0.0`); an exponent of 309 or more falls off
the `POW10` table (`NumberOutOfRange`); for `0 ≤ e ≤ 308` the computed
`(sig as f64) * POW10[e]` is infinite exactly when the exact product of the
two rounded factors reaches the IEEE overflow threshold; a negative
exponent divides, which cannot overflow. -/
def numberInRange (sig : Nat) (e : Int) : Bool :=
  if sig = 0 then true
  else if 309 ≤ e then false
  else if 0 ≤ e then
    decide (roundTo53 sig * roundTo53 (10 ^ e.toNat) < f64OverflowThreshold)
  else true

/-- serde_json's acceptance of a grammar-valid number literal when
deserializing into a `Value`: run the significand and exponent
accumulations of `parse_integer`/`parse_long_integer`/`parse_decimal`/
`parse_exponent` on the lexeme, then apply the `f64_from_parts` range
check. An exponent literal too large for `i32` is an error exactly for a
nonzero significand with positive exponent sign (`parse_exponent_overflow`,
otherwise the value is `0.0`); integers that fit the `u64` accumulator with
no fraction or exponent are stored exactly and are always in range (the
range check accepts them too, so one uniform check suffices). Byte 45 is
`-`, 46 `.`, 101/69 `e`/`E`, 43 `+`. -/
def numberAccept (lex : List Nat) : Bool :=
  let l1 :=
    match lex with
    | 45 :: r => r
    | _ => lex
  let intDs := (l1.takeWhile isDigitByte).map digitVal
  let l2 := l1.dropWhile isDigitByte
  let fracDs :=
    match l2 with
    | 46 :: r => (r.takeWhile isDigitByte).map digitVal
    | _ => []
  let l3 :=
    match l2 with
    | 46 :: r => r.dropWhile isDigitByte
    | _ => l2
  let si := accumIntDigits intDs 0
  let sf := accumFracDigits fracDs si.1 (si.2 : Int)
  match l3 with
  | 101 :: r | 69 :: r =>
    let posExp :=
      match r with
      | 45 :: _ => false
      | _ => true
    let ds :=
      match r with
      | 43 :: r2 => r2
      | 45 :: r2 => r2
      | _ => r
    match accumExpDigits (ds.map digitVal) 0 with
    | none => decide (sf.1 = 0) || !posExp
    | some ev => numberInRange sf.1 (if posExp then sf.2 + ev else sf.2 - ev)
  | _ => numberInRange sf.1 sf.2

mutual

/-- Parse one JSON value after skipping whitespace, serde_json's dispatch on
the first byte: `n`/`t`/`f` (110/116/102) keywords, `"` (34) string, `{`
(123) object, `[` (91) array, `-` or a digit a number; anything else is an
error. A number must additionally pass `numberAccept` (serde_json's
`NumberOutOfRange`). `depth` is serde_json's `remaining_depth`: entering a
container decrements it, and hitting zero is `RecursionLimitExceeded`
(`none`), checked before the container's content is examined. The fuel
argument only serves termination; `jsonParse` passes more fuel than any
input can consume. -/
def parseValue : Nat → Nat → List Nat → Option (Json × List Nat)
  | 0, _, _ => none
  | fuel + 1, depth, s =>
    match skipWs s with
    | [] => none
    | b :: rest =>
      if b = 110 then
        match rest with
        | 117 :: 108 :: 108 :: r => some (Json.null, r)
        | _ => none
      else if b = 116 then
        match rest with
        | 114 :: 117 :: 101 :: r => some (Json.bool true, r)
        | _ => none
      else if b = 102 then
        match rest with
        | 97 :: 108 :: 115 :: 101 :: r => some (Json.bool false, r)
        | _ => none
      else if b = 34 then
        (parseStringBody rest).map (fun p => (Json.str p.1, p.2))
      else if b = 123 then
        if depth ≤ 1 then none
        else
          match skipWs rest with
          | 125 :: r => some (Json.obj [], r)
          | r => (parseObjectItems fuel (depth - 1) r).map (fun p => (Json.obj p.1, p.2))
      else if b = 91 then
        if depth ≤ 1 then none
        else
          match skipWs rest with
          | 93 :: r => some (Json.arr [], r)
          | r => (parseArrayItems fuel (depth - 1) r).map (fun p => (Json.arr p.1, p.2))
      else if b = 45 ∨ isDigitByte b then
        match parseNumber (b :: rest) with
        | some p => if numberAccept p.1 then some (Json.num p.1, p.2) else none
        | none => none
      else none

/-- Parse the elements of a non-empty JSON array, positioned at the first
element; after each element, `,` (44) continues and `]` (93) closes.
`depth` is the remaining recursion depth inside this array. -/
def parseArrayItems : Nat → Nat → List Nat → Option (List Json × List Nat)
  | 0, _, _ => none
  | fuel + 1, depth, s =>
    match parseValue fuel depth s with
    | none => none
    | some (v, r) =>
      match skipWs r with
      | 44 :: r2 => (parseArrayItems fuel depth r2).map (fun p => (v :: p.1, p.2))
      | 93 :: r2 => some ([v], r2)
      | _ => none

/-- Parse the members of a non-empty JSON object, positioned at the first
member: a string key, `:` (58), a value; after each member, `,` (44)
continues (the next member must again start with `"`) and `}` (125)
closes. `depth` is the remaining recursion depth inside this object. -/
def parseObjectItems : Nat → Nat → List Nat → Option (List (List Nat × Json) × List Nat)
  | 0, _, _ => none
  | fuel + 1, depth, s =>
    match skipWs s with
    | 34 :: r =>
      match parseStringBody r with
      | none => none
      | some (key, r2) =>
        match skipWs r2 with
        | 58 :: r3 =>
          match parseValue fuel depth r3 with
          | none => none
          | some (v, r4) =>
            match skipWs r4 with
            | 44 :: r5 =>
              (parseObjectItems fuel depth r5).map (fun p => ((key, v) :: p.1, p.2))
            | 125 :: r5 => some ([(key, v)], r5)
            | _ => none
        | _ => none
    | _ => none

end

/-- Model of `serde_json::from_slice::<Value>`: parse one JSON value with
serde_json's initial `remaining_depth` of 128 and require that only
whitespace follows it (otherwise serde_json reports trailing characters).
The fuel `length + 2` exceeds what any input can consume: every unit of
fuel spent entering a nested value or a further element is matched by at
least one input byte. -/
def jsonParse (bytes : List Nat) : Option Json :=
  match parseValue (bytes.length + 2) 128 bytes with
  | some (v, rest) => if skipWs rest = [] then some v else none
  | none => none

/-- Outcome of one call of `from_request_parts`: the `Ok` value, the
`Err((StatusCode, String))` rejection, or a panic (the `unwrap` on
`to_str`). -/
inductive ExtractResult where
  | panicked
  | ok (value : Json)
  | err (status : Nat) (message : String)

/-- Model of `ExtractUserInfo::from_request_parts`, threading the `error!`
log sink explicitly: look up the header (absent → 400 "Not found"), convert
the value to a string (`unwrap` panics on a non-visible-ASCII byte), trim
it, base64-decode it (failure → log, 400 "Not a valid base 64"), parse the
bytes as JSON (failure → log, 400 "Not a valid JSON"), and otherwise return
the parsed value. -/
def from_request_parts (hm : HeaderMap) (log : List String) :
    ExtractResult × List String :=
  match headerGet hm headerNameBytes with
  | none =>
    (.err 400 ("Invalid " ++ HEADER_X_USER_INFO ++ " : Not found"), log)
  | some raw =>
    match headerValueToStr raw with
    | none => (.panicked, log)
    | some s =>
      match base64Decode (rustTrim s) with
      | none =>
        (.err 400 ("Invalid " ++ HEADER_X_USER_INFO ++ " : Not a valid base 64"),
         log ++ ["[" ++ HEADER_X_USER_INFO ++ "] Failed to decode base 64 due to : "])
      | some bytes =>
        match jsonParse bytes with
        | none =>
          (.err 400 ("Invalid " ++ HEADER_X_USER_INFO ++ " : Not a valid JSON"),
           log ++ ["[" ++ HEADER_X_USER_INFO ++ "] Failed to parse JSON due to : "])
        | some v => (.ok v, log)

/-- The extractor's result on a request, starting from an empty log. -/
def extract (hm : HeaderMap) : ExtractResult :=
  (from_request_parts hm []).1

/-! Helper lemmas shared by the claim theorems. -/

/-- The extractor reads the request only through `headerGet` on its header
name. -/
theorem from_request_parts_congr (hm1 hm2 : HeaderMap) (log : List String)
    (h : headerGet hm1 headerNameBytes = headerGet hm2 headerNameBytes) :
    from_request_parts hm1 log = from_request_parts hm2 log := by
  unfold from_request_parts
  rw [h]

/-- Dropping while a predicate holds ignores a prefix on which it holds
everywhere. -/
theorem dropWhile_all_append (p : Nat → Bool) (ws t : List Nat)
    (h : ∀ b ∈ ws, p b = true) :
    (ws ++ t).dropWhile p = t.dropWhile p := by
  induction ws with
  | nil => rfl
  | cons a l ih =>
    have ha : p a = true := h a (List.mem_cons_self a l)
    simp only [List.cons_append, List.dropWhile_cons, ha, if_true]
    exact ih (fun b hb => h b (List.mem_cons_of_mem a hb))

/-- Trimming ignores an all-whitespace suffix. -/
theorem rustTrim_append_ws (s ws : List Nat)
    (h : ∀ b ∈ ws, isRustWhitespace b = true) :
    rustTrim (s ++ ws) = rustTrim s := by
  unfold rustTrim
  rw [List.dropWhile_append]
  by_cases he : (s.dropWhile isRustWhitespace).isEmpty
  · have hs : s.dropWhile isRustWhitespace = [] := by
      cases hd : s.dropWhile isRustWhitespace with
      | nil => rfl
      | cons a l => rw [hd] at he; simp at he
    have hw : ws.dropWhile isRustWhitespace = [] := by
      have := dropWhile_all_append isRustWhitespace ws [] h
      simpa using this
    simp [he, hs, hw]
  · simp only [he, if_false, Bool.false_eq_true]
    rw [List.reverse_append]
    rw [dropWhile_all_append isRustWhitespace ws.reverse _
      (fun b hb => h b (List.mem_reverse.mp hb))]

/-- Trimming ignores an all-whitespace prefix. -/
theorem rustTrim_ws_append (ws s : List Nat)
    (h : ∀ b ∈ ws, isRustWhitespace b = true) :
    rustTrim (ws ++ s) = rustTrim s := by
  unfold rustTrim
  rw [dropWhile_all_append isRustWhitespace ws s h]

/-- Trimming ignores whitespace padding on both ends. -/
theorem rustTrim_pad (ws1 s ws2 : List Nat)
    (h1 : ∀ b ∈ ws1, isRustWhitespace b = true)
    (h2 : ∀ b ∈ ws2, isRustWhitespace b = true) :
    rustTrim (ws1 ++ s ++ ws2) = rustTrim s := by
  rw [List.append_assoc, rustTrim_ws_append ws1 (s ++ ws2) h1,
    rustTrim_append_ws s ws2 h2]

/-- ASCII lowercasing a byte is idempotent. -/
theorem lowerByte_idem (b : Nat) : lowerByte (lowerByte b) = lowerByte b := by
  unfold lowerByte
  split
  · split <;> omega
  · rfl

/-- ASCII lowercasing a name is idempotent. -/
theorem lowerName_idem (n : List Nat) : lowerName (lowerName n) = lowerName n := by
  unfold lowerName
  rw [List.map_map]
  exact List.map_congr_left (fun b _ => lowerByte_idem b)

/-- Header lookup only sees ASCII-lowercased names: lowercasing every stored
name beforehand does not change the result. -/
theorem headerGet_map_lower (hm : HeaderMap) (name : List Nat) :
    headerGet (hm.map (fun p => (lowerName p.1, p.2))) name = headerGet hm name := by
  unfold headerGet
  induction hm with
  | nil => rfl
  | cons p l ih =>
    simp only [List.map_cons, List.find?_cons]
    rw [lowerName_idem]
    cases hp : (lowerName p.1 == lowerName name) with
    | true => rfl
    | false => exact ih

/-! Claim theorems. -/

/-- C1: whenever the `X-Endpoint-API-UserInfo` header is present, its value
converts to a string, the trimmed string decodes as RFC 4648 standard padded
base64, and the decoded bytes parse as a JSON document of any shape,
`from_request_parts` succeeds and returns exactly the value obtained by
parsing the decoded bytes directly as JSON. -/
theorem claim1_valid_base64_json_success (hm : HeaderMap) (log : List String)
    (raw s bytes : List Nat) (j : Json)
    (hget : headerGet hm headerNameBytes = some raw)
    (hstr : headerValueToStr raw = some s)
    (hdec : base64Decode (rustTrim s) = some bytes)
    (hjson : jsonParse bytes = some j) :
    (from_request_parts hm log).1 = .ok j := by
  simp [from_request_parts, hget, hstr, hdec, hjson]

/-- Witness for C1: the header value `e30=` (base64 of the two bytes of the
JSON text of the empty object) succeeds and yields the empty object. -/
theorem claim1_witness :
    (from_request_parts [(headerNameBytes, strBytes "e30=")] []).1 =
      .ok (Json.obj []) :=
  claim1_valid_base64_json_success _ _ (strBytes "e30=") (strBytes "e30=")
    [123, 125] (Json.obj []) rfl rfl rfl rfl

/-- C2: when the header is absent (no stored name matches the looked-up name
case-insensitively), the result is exactly the 400 rejection with message
`Invalid X-Endpoint-API-UserInfo : Not found`, and the log is untouched (no
decode or parse diagnostic is emitted). -/
theorem claim2_header_missing (hm : HeaderMap) (log : List String)
    (hnone : headerGet hm headerNameBytes = none) :
    from_request_parts hm log =
      (.err 400 "Invalid X-Endpoint-API-UserInfo : Not found", log) := by
  simp [from_request_parts, hnone]
  rfl

/-- Witness for C2: a request with no headers at all. -/
theorem claim2_witness :
    from_request_parts [] [] =
      (.err 400 "Invalid X-Endpoint-API-UserInfo : Not found", []) :=
  claim2_header_missing [] [] rfl

/-- C3: when the header is present, its value converts to a string, and the
trimmed string is not valid RFC 4648 standard padded base64, the result is
exactly the 400 rejection with message
`Invalid X-Endpoint-API-UserInfo : Not a valid base 64`. -/
theorem claim3_invalid_base64 (hm : HeaderMap) (log : List String)
    (raw s : List Nat)
    (hget : headerGet hm headerNameBytes = some raw)
    (hstr : headerValueToStr raw = some s)
    (hdec : base64Decode (rustTrim s) = none) :
    (from_request_parts hm log).1 =
      .err 400 "Invalid X-Endpoint-API-UserInfo : Not a valid base 64" := by
  simp [from_request_parts, hget, hstr, hdec]
  rfl

/-- Witness for C3: the header value `this-is-not-a-base64` of the
repository's own test is rejected as invalid base64. -/
theorem claim3_witness :
    (from_request_parts [(headerNameBytes, strBytes "this-is-not-a-base64")] []).1 =
      .err 400 "Invalid X-Endpoint-API-UserInfo : Not a valid base 64" :=
  claim3_invalid_base64 _ _ (strBytes "this-is-not-a-base64")
    (strBytes "this-is-not-a-base64") rfl rfl rfl

/-- C4: when the header is present, its value converts to a string, the
trimmed string decodes as standard base64, but the decoded bytes do not
parse as a JSON document, the result is exactly the 400 rejection with
message `Invalid X-Endpoint-API-UserInfo : Not a valid JSON`. -/
theorem claim4_invalid_json (hm : HeaderMap) (log : List String)
    (raw s bytes : List Nat)
    (hget : headerGet hm headerNameBytes = some raw)
    (hstr : headerValueToStr raw = some s)
    (hdec : base64Decode (rustTrim s) = some bytes)
    (hjson : jsonParse bytes = none) :
    (from_request_parts hm log).1 =
      .err 400 "Invalid X-Endpoint-API-UserInfo : Not a valid JSON" := by
  simp [from_request_parts, hget, hstr, hdec, hjson]
  rfl

/-- Witness for C4: the header value `dGhpcy1pcy1ub3QtYS1qc29u` of the
repository's own test decodes to `this-is-not-a-json`, which is not JSON. -/
theorem claim4_witness :
    (from_request_parts [(headerNameBytes, strBytes "dGhpcy1pcy1ub3QtYS1qc29u")] []).1 =
      .err 400 "Invalid X-Endpoint-API-UserInfo : Not a valid JSON" :=
  claim4_invalid_json _ _ (strBytes "dGhpcy1pcy1ub3QtYS1qc29u")
    (strBytes "dGhpcy1pcy1ub3QtYS1qc29u") (strBytes "this-is-not-a-json")
    rfl rfl rfl rfl

/-- C5: when the header is present and its value trims to the empty string,
the result is the `Not a valid JSON` rejection — not `Not found` and not
`Not a valid base 64` — because the empty string decodes as base64 to zero
bytes and zero bytes fail JSON parsing. -/
theorem claim5_empty_value_is_invalid_json (hm : HeaderMap) (log : List String)
    (raw s : List Nat)
    (hget : headerGet hm headerNameBytes = some raw)
    (hstr : headerValueToStr raw = some s)
    (htrim : rustTrim s = []) :
    base64Decode [] = some [] ∧ jsonParse [] = none ∧
    (from_request_parts hm log).1 =
      .err 400 "Invalid X-Endpoint-API-UserInfo : Not a valid JSON" := by
  refine ⟨rfl, rfl, ?_⟩
  simp [from_request_parts, hget, hstr, htrim]
  rfl

/-- Witness for C5: a header value of two spaces. -/
theorem claim5_witness :
    base64Decode [] = some [] ∧ jsonParse [] = none ∧
    (from_request_parts [(headerNameBytes, [32, 32])] []).1 =
      .err 400 "Invalid X-Endpoint-API-UserInfo : Not a valid JSON" :=
  claim5_empty_value_is_invalid_json _ _ [32, 32] [32, 32] rfl rfl rfl

/-- C6: padding a successful header value with leading and/or trailing
whitespace (tab or space — the only Rust-whitespace bytes an
`http::HeaderValue` can carry) yields the same successful result: if the
extractor returns `ok j` on a request carrying value `v`, it returns the
same `ok j` on a request carrying `ws1 ++ v ++ ws2`. -/
theorem claim6_whitespace_tolerance (hm hm' : HeaderMap) (log : List String)
    (v ws1 ws2 : List Nat) (j : Json)
    (hget : headerGet hm headerNameBytes = some v)
    (hget' : headerGet hm' headerNameBytes = some (ws1 ++ v ++ ws2))
    (hws1 : ∀ b ∈ ws1, b = 9 ∨ b = 32)
    (hws2 : ∀ b ∈ ws2, b = 9 ∨ b = 32)
    (hok : (from_request_parts hm log).1 = .ok j) :
    (from_request_parts hm' log).1 = .ok j := by
  have hws1' : ∀ b ∈ ws1, isRustWhitespace b = true := by
    intro b hb
    rcases hws1 b hb with h | h <;> simp [isRustWhitespace, h]
  have hws2' : ∀ b ∈ ws2, isRustWhitespace b = true := by
    intro b hb
    rcases hws2 b hb with h | h <;> simp [isRustWhitespace, h]
  by_cases hv : v.all visibleAsciiByte
  · have hv' : (ws1 ++ v ++ ws2).all visibleAsciiByte = true := by
      rw [List.all_eq_true]
      intro b hb
      rcases List.mem_append.mp hb with hbl | hb2
      · rcases List.mem_append.mp hbl with hb1 | hbv
        · rcases hws1 b hb1 with h | h <;> simp [visibleAsciiByte, h]
        · exact List.all_eq_true.mp hv b hbv
      · rcases hws2 b hb2 with h | h <;> simp [visibleAsciiByte, h]
    have hstr : headerValueToStr v = some v := by
      simp [headerValueToStr, hv]
    have hstr' : headerValueToStr (ws1 ++ v ++ ws2) = some (ws1 ++ v ++ ws2) := by
      unfold headerValueToStr
      rw [hv']
      rfl
    simp only [from_request_parts, hget, hstr] at hok
    simp only [from_request_parts, hget', hstr',
      rustTrim_pad ws1 v ws2 hws1' hws2']
    exact hok
  · have hstr : headerValueToStr v = none := by
      simp [headerValueToStr, hv]
    simp [from_request_parts, hget, hstr] at hok

/-- Witness for C6: `e30=` succeeds with the empty object, and so does
`" \te30= "` (space, tab, the value, space). -/
theorem claim6_witness :
    (from_request_parts [(headerNameBytes, [32, 9] ++ strBytes "e30=" ++ [32])] []).1 =
      .ok (Json.obj []) :=
  claim6_whitespace_tolerance [(headerNameBytes, strBytes "e30=")] _ []
    (strBytes "e30=") [32, 9] [32] (Json.obj []) rfl rfl
    (by decide) (by decide) rfl

/-- C7: the extractor's result does not depend on the casing of the stored
header names: two requests whose header lists agree after ASCII-lowercasing
every name (values untouched) produce identical results, log included. -/
theorem claim7_name_case_insensitive (hm1 hm2 : HeaderMap) (log : List String)
    (h : hm1.map (fun p => (lowerName p.1, p.2)) =
         hm2.map (fun p => (lowerName p.1, p.2))) :
    from_request_parts hm1 log = from_request_parts hm2 log := by
  apply from_request_parts_congr
  rw [← headerGet_map_lower hm1, h, headerGet_map_lower]

/-- Witness for C7: the canonical name and the all-lowercase name carrying
the test's not-a-JSON value give identical results. -/
theorem claim7_witness :
    from_request_parts
        [(strBytes "X-Endpoint-API-UserInfo", strBytes "dGhpcy1pcy1ub3QtYS1qc29u")] [] =
      from_request_parts
        [(strBytes "x-endpoint-api-userinfo", strBytes "dGhpcy1pcy1ub3QtYS1qc29u")] [] :=
  claim7_name_case_insensitive _ _ [] rfl

/-- C8: the extractor is deterministic and stateless: its result is a pure
function of the header set — the only threaded state, the log sink, never
influences the outcome, and a second invocation on the same headers (even
continuing from the log the first one produced) returns the identical
result. -/
theorem claim8_deterministic_stateless (hm : HeaderMap) (log1 log2 : List String) :
    (from_request_parts hm log1).1 = (from_request_parts hm log2).1 ∧
    (from_request_parts hm (from_request_parts hm log1).2).1 =
      (from_request_parts hm log1).1 := by
  cases hg : headerGet hm headerNameBytes with
  | none => simp [from_request_parts, hg]
  | some raw =>
    cases hs : headerValueToStr raw with
    | none => simp [from_request_parts, hg, hs]
    | some s =>
      cases hd : base64Decode (rustTrim s) with
      | none => simp [from_request_parts, hg, hs, hd]
      | some bytes =>
        cases hj : jsonParse bytes with
        | none => simp [from_request_parts, hg, hs, hd, hj]
        | some v => simp [from_request_parts, hg, hs, hd, hj]

/-- C9: when the header occurs several times, the first occurrence decides
the result: with no earlier matching name, the request whose header list
continues after `(n, v)` with arbitrary further pairs behaves exactly like
the request that stops at `(n, v)`. -/
theorem claim9_first_occurrence_wins (pre post : HeaderMap) (n v : List Nat)
    (log : List String)
    (hpre : ∀ p ∈ pre, lowerName p.1 ≠ lowerName headerNameBytes)
    (hn : lowerName n = lowerName headerNameBytes) :
    from_request_parts (pre ++ (n, v) :: post) log =
      from_request_parts (pre ++ [(n, v)]) log := by
  apply from_request_parts_congr
  unfold headerGet
  rw [List.find?_append, List.find?_append]
  have hpre' :
      pre.find? (fun p => lowerName p.1 == lowerName headerNameBytes) = none := by
    rw [List.find?_eq_none]
    intro x hx
    simpa using hpre x hx
  rw [hpre']
  have hcons : ∀ post' : HeaderMap,
      ((n, v) :: post').find? (fun p => lowerName p.1 == lowerName headerNameBytes) =
        some (n, v) := by
    intro post'
    apply List.find?_cons_of_pos
    simpa using hn
  rw [hcons post, hcons []]

/-- Witness for C9: with an unrelated `Host` header first, a lowercase-named
occurrence carrying `e30=` wins over a later occurrence carrying the
not-a-JSON value. -/
theorem claim9_witness :
    from_request_parts
        [(strBytes "Host", strBytes "example.com"),
         (strBytes "x-endpoint-api-userinfo", strBytes "e30="),
         (headerNameBytes, strBytes "dGhpcy1pcy1ub3QtYS1qc29u")] [] =
      from_request_parts
        [(strBytes "Host", strBytes "example.com"),
         (strBytes "x-endpoint-api-userinfo", strBytes "e30=")] [] :=
  claim9_first_occurrence_wins [(strBytes "Host", strBytes "example.com")]
    [(headerNameBytes, strBytes "dGhpcy1pcy1ub3QtYS1qc29u")]
    (strBytes "x-endpoint-api-userinfo") (strBytes "e30=") []
    (by decide) (by decide)

/-- C10: the classified-error branch is not total: the byte `0x80` is a
legal `http::HeaderValue` byte but not visible ASCII, so `to_str` fails and
the `unwrap` panics instead of producing one of the three 400 errors. -/
theorem claim10_panic_on_opaque_byte :
    validHeaderValue [128] ∧
    [128].all visibleAsciiByte = false ∧
    extract [(headerNameBytes, [128])] = .panicked := by
  refine ⟨by decide, by decide, rfl⟩

end UserInfo

